import Mathlib

/-!
Verification development for the media-processing server in
`src/Server/server.py` (Flask app: `convert_webm_to_mp4`,
`process_video_complete`, `allowed_file`, configuration constants).

The Python code is shallowly embedded:

* JSON-like / Python dict values become the mutual inductives `JVal` /
  `JEntries` (a dict is an ordered association list, as in CPython).
* The filesystem is an explicit association of paths to file sizes (`FS`):
  the only filesystem facts the server inspects are existence and size.
* External collaborators (werkzeug's `secure_filename`, ffmpeg, the
  functions imported from `audio.py` / `video.py` / `gemini.py`, and
  `json.loads`) are parameters gathered in the `Collab` structure.  A
  collaborator that can raise an exception is modelled as returning
  `Except String _`; the `.error` case is an exception propagating to the
  handler's outer `except Exception` block.
* Python `str` helpers used by the code (`find`, `rfind`, slicing,
  `lower`, `title`, `replace` on a single character, `endswith`,
  `os.path.basename`, f-string conversion of values) are modelled
  character-wise on `String.data`, matching CPython semantics on ASCII
  input.
-/

/-! ## Python/JSON values -/

mutual

/-- A Python value as it appears in the server's dicts: strings, integers,
and nested dicts (ordered key/value lists, like CPython dicts). -/
inductive JVal : Type where
  | str (s : String)
  | int (n : Int)
  | obj (entries : JEntries)

/-- Ordered entries of a Python dict with `String` keys. -/
inductive JEntries : Type where
  | nil
  | cons (key : String) (val : JVal) (rest : JEntries)

end

/-- True exactly when the dict has no entries (Python falsiness of a dict). -/
def JEntries.isNil : JEntries → Bool
  | .nil => true
  | .cons _ _ _ => false

/-- Python `key in dict`. -/
def JEntries.hasKey : JEntries → String → Bool
  | .nil, _ => false
  | .cons k _ rest, q => k == q || rest.hasKey q

/-- Python truthiness of an `Optional gemini` value. -/
def optTruthy : Option JEntries → Bool
  | none => false
  | some e => !e.isNil

mutual

/-- Python `repr` of a value (as produced inside `str` of a dict).  The
single-quote character is written `\x27`.  String escaping inside `repr`
is not modelled; the inputs of interest contain no quotes. -/
def pyRepr : JVal → String
  | .str s => "\x27" ++ s ++ "\x27"
  | .int n => toString n
  | .obj es => "\x7b" ++ pyReprEntries es ++ "\x7d"

/-- Python `repr` of the comma-separated entries of a dict. -/
def pyReprEntries : JEntries → String
  | .nil => ""
  | .cons k v .nil => "\x27" ++ k ++ "\x27: " ++ pyRepr v
  | .cons k v (.cons k2 v2 rest) =>
      "\x27" ++ k ++ "\x27: " ++ pyRepr v ++ ", " ++ pyReprEntries (.cons k2 v2 rest)

end

/-- Python `str(value)` / f-string conversion: a string prints as itself,
an integer in decimal, a dict via `repr` of its entries. -/
def pyStr : JVal → String
  | .str s => s
  | .int n => toString n
  | .obj es => "\x7b" ++ pyReprEntries es ++ "\x7d"

/-! ## Python string helpers -/

/-- Python `str.lower` (ASCII). -/
def pyLower (s : String) : String := ⟨s.data.map Char.toLower⟩

/-- Helper for `pyTitle`: the boolean records whether the previous
character was alphabetic. -/
def pyTitleAux : Bool → List Char → List Char
  | _, [] => []
  | prevAlpha, c :: rest =>
    if c.isAlpha then
      (if prevAlpha then c.toLower else c.toUpper) :: pyTitleAux true rest
    else
      c :: pyTitleAux false rest

/-- Python `str.title` (ASCII): the first letter of each alphabetic run is
uppercased, the following letters lowercased. -/
def pyTitle (s : String) : String := ⟨pyTitleAux false s.data⟩

/-- Python `str.replace(a, b)` for single-character `a`, `b`. -/
def pyReplaceChar (s : String) (a b : Char) : String :=
  ⟨s.data.map fun c => if c == a then b else c⟩

/-- Python `str.endswith(suffix)`. -/
def pyEndsWith (s suffix : String) : Bool :=
  suffix.data.isSuffixOf s.data

/-- Index of the first occurrence of `c`, if any. -/
def firstIdx? (c : Char) : List Char → Option Nat
  | [] => none
  | x :: xs => if x == c then some 0 else (firstIdx? c xs).map (· + 1)

/-- Index of the last occurrence of `c`, if any. -/
def lastIdx? (c : Char) : List Char → Option Nat
  | [] => none
  | x :: xs =>
    match lastIdx? c xs with
    | some k => some (k + 1)
    | none => if x == c then some 0 else none

/-- Python `str.find(c)`: index of the first occurrence, `-1` if absent. -/
def pyFind (s : String) (c : Char) : Int :=
  match firstIdx? c s.data with
  | some i => (i : Int)
  | none => -1

/-- Python `str.rfind(c)`: index of the last occurrence, `-1` if absent. -/
def pyRFind (s : String) (c : Char) : Int :=
  match lastIdx? c s.data with
  | some j => (j : Int)
  | none => -1

/-- Python slice `s[a:b]` for `0 ≤ a`, `0 ≤ b` (clamping like Python). -/
def pySlice (s : String) (a b : Nat) : String :=
  ⟨(s.data.drop a).take (b - a)⟩

/-- Python `os.path.basename`: the part of the path after the last `/`. -/
def basename (s : String) : String :=
  ⟨(s.data.reverse.takeWhile (fun c => c != '/')).reverse⟩

/-- Python `filename.rsplit(".", 1)[1]` when a dot is present: the part of
the string after the last dot. -/
def rsplitAfterDot (s : String) : String :=
  ⟨(s.data.reverse.takeWhile (fun c => c != '.')).reverse⟩

/-! ## Filesystem model

The server only ever asks whether a path exists (`os.path.exists`) and for
its size (`os.path.getsize`), and mutates the filesystem through file
writes and `os.remove` / `os.unlink`.  So a filesystem state is an
association of existing paths to their sizes. -/

/-- Filesystem state: the association of existing paths to file sizes. -/
structure FS : Type where
  files : List (String × Nat)
deriving DecidableEq

/-- Python `os.path.exists p`. -/
def FS.contains (fs : FS) (p : String) : Bool :=
  fs.files.any (fun x => x.1 == p)

/-- Python `os.path.getsize p` (0 when the path is absent; the server only calls
it under an `os.path.exists` guard). -/
def FS.size (fs : FS) (p : String) : Nat :=
  ((fs.files.find? (fun x => x.1 == p)).map (fun x => x.2)).getD 0

/-- Writing a file of size `n` at `p` (creation or overwrite). -/
def FS.write (fs : FS) (p : String) (n : Nat) : FS :=
  ⟨(p, n) :: fs.files.filter (fun x => x.1 != p)⟩

/-- Python `os.remove p` / `os.unlink p` (no-op when absent; the server always
guards removals with `os.path.exists` or swallows the `OSError`). -/
def FS.remove (fs : FS) (p : String) : FS :=
  ⟨fs.files.filter (fun x => x.1 != p)⟩

/-- The recurring `if os.path.exists(p): os.remove(p)` pattern. -/
def FS.condRemove (fs : FS) (p : String) : FS :=
  if fs.contains p then fs.remove p else fs

/-! ## Configuration (`server.py` lines 20-32) -/

/-- Line 21: `UPLOAD_FOLDER: str = "uploads"`. -/
def UPLOAD_FOLDER : String := "uploads"

/-- Line 22: `ALLOWED_EXTENSIONS: set = {"mp4", "avi", "mov", "wmv", "mkv", "webm",
"webp"}`. -/
def ALLOWED_EXTENSIONS : List String :=
  ["mp4", "avi", "mov", "wmv", "mkv", "webm", "webp"]

/-- Modelled from the spec: `OUTPUT_AUDIO_FILENAME` is imported from
`audio.py`, which is not under `src/`; the spec describes it as the fixed
"well-known location" of the AudioArtifact, so it is modelled as a fixed
constant path. -/
def OUTPUT_AUDIO_FILENAME : String := "output_audio.wav"

/-- Function `allowed_file` (`server.py` lines 30-32): the filename contains a dot
and the lowercased part after the last dot is an allowed extension. -/
def allowed_file (filename : String) : Bool :=
  filename.data.contains '.' &&
    ALLOWED_EXTENSIONS.contains (pyLower (rsplitAfterDot filename))

/-! ## Format normalizer (`convert_webm_to_mp4`, lines 35-91) -/

/-- Observable behavior of one `subprocess.run(["ffmpeg", ...])` call.
`left` records the state the output file is left in by ffmpeg (`some n` =
present with `n` bytes, `none` = absent).  `ok` is a zero exit status,
`procError` a non-zero exit status (`subprocess.CalledProcessError`),
`raised` any other exception escaping `subprocess.run` (for example
`FileNotFoundError` when the ffmpeg binary is missing). -/
inductive EncoderOutcome : Type where
  | ok (left : Option Nat)
  | procError (left : Option Nat)
  | raised (left : Option Nat)
deriving DecidableEq

/-- The state of the output path after ffmpeg ran. -/
def applyLeft (fs : FS) (p : String) : Option Nat → FS
  | some n => fs.write p n
  | none => fs.remove p

/-- Function `convert_webm_to_mp4` (lines 35-91).  `alloc` is the fresh path
returned by `tempfile.mkstemp(suffix=".mp4", dir="uploads")`, which
creates an empty file there; the encoder then runs on it.

* zero exit: return the path if the output exists and is non-empty,
  otherwise return `None` (lines 75-80) — note: no deletion here;
* non-zero exit or other exception: delete the output if it exists and
  return `None` (lines 82-91). -/
def convert_webm_to_mp4 (encoder : String → String → EncoderOutcome)
    (fs : FS) (alloc : String) (webm_path : String) : Option String × FS :=
  let fs1 := fs.write alloc 0
  match encoder webm_path alloc with
  | .ok left =>
    let fs2 := applyLeft fs1 alloc left
    if fs2.contains alloc && fs2.size alloc != 0 then
      (some alloc, fs2)
    else
      (none, fs2)
  | .procError left =>
    let fs2 := applyLeft fs1 alloc left
    (none, fs2.condRemove alloc)
  | .raised left =>
    let fs2 := applyLeft fs1 alloc left
    (none, fs2.condRemove alloc)

/-! ## The `results` dict -/

/-- Python `key in results` for the top-level `results` dict. -/
def hasKey (d : List (String × JVal)) (k : String) : Bool :=
  d.any (fun kv => kv.1 == k)

/-- Python `results[k] = v`: replace in place when the key is present
(keeping its position, as CPython dicts do), append otherwise. -/
def setKey (d : List (String × JVal)) (k : String) (v : JVal) :
    List (String × JVal) :=
  if hasKey d k then
    d.map (fun kv => if kv.1 == k then (k, v) else kv)
  else
    d ++ [(k, v)]

/-- Python `d.get(k)` / `d[k]`. -/
def getVal (d : List (String × JVal)) (k : String) : Option JVal :=
  (d.find? (fun kv => kv.1 == k)).map (fun kv => kv.2)

/-- The value at `k` when it is a string. -/
def lookupStr (d : List (String × JVal)) (k : String) : Option String :=
  match getVal d k with
  | some (.str s) => some s
  | _ => none

/-- Drop all entries with key `k` (used to compare result dicts up to one
field). -/
def dropKey (d : List (String × JVal)) (k : String) : List (String × JVal) :=
  d.filter (fun kv => kv.1 != k)

/-! ## Metric formatting (`process_video_complete` lines 186-204) -/

/-- The audio-metrics loop (lines 188-191): for each `key, value`,
`audio_metrics_str += f"- {key.replace('_', ' ').title()}: {value}\n"`. -/
def audioFmtAux (acc : String) : JEntries → String
  | .nil => acc
  | .cons k v rest =>
    audioFmtAux
      (acc ++ "- " ++ pyTitle (pyReplaceChar k '_' ' ') ++ ": " ++ pyStr v ++ "\n")
      rest

/-- The audio-metrics block: header plus one line per metric. -/
def formatAudioMetrics (m : JEntries) : String :=
  audioFmtAux "Audio Analysis:\n" m

/-- The inner loop over `value.items()` of `emotion_distribution`
(lines 199-200): `video_metrics_str += f"  - {emotion}: {count}\n"`. -/
def emoLines (acc : String) : JEntries → String
  | .nil => acc
  | .cons k v rest => emoLines (acc ++ "  - " ++ k ++ ": " ++ pyStr v ++ "\n") rest

/-- The video-metrics loop (lines 196-204).  On the key
`"emotion_distribution"` the code iterates `value.items()`; when that
value is not a mapping Python raises `AttributeError`, which escapes to
the outer handler — modelled as the `.error` case. -/
def videoFmtAux (acc : String) : JEntries → Except String String
  | .nil => .ok acc
  | .cons k v rest =>
    if k == "emotion_distribution" then
      match v with
      | .obj sub =>
        videoFmtAux
          (emoLines (acc ++ "- " ++ pyTitle (pyReplaceChar k '_' ' ') ++ ":\n") sub)
          rest
      | _ => .error "AttributeError"
    else
      videoFmtAux
        (acc ++ "- " ++ pyTitle (pyReplaceChar k '_' ' ') ++ ": " ++ pyStr v ++ "\n")
        rest

/-- The video-metrics block: header plus the loop of `videoFmtAux`. -/
def formatVideoMetricsE (m : JEntries) : Except String String :=
  videoFmtAux "Video Analysis:\n" m

/-- True exactly when the value is a mapping. -/
def JVal.isObj : JVal → Bool
  | .obj _ => true
  | _ => false

/-- True exactly when every `"emotion_distribution"` entry holds a mapping, so
that the video-metrics loop cannot raise. -/
def emotionEntriesAreDicts : JEntries → Bool
  | .nil => true
  | .cons k v rest =>
    (!(k == "emotion_distribution") || v.isObj) && emotionEntriesAreDicts rest

/-! ## Gemini-response JSON extraction (lines 215-231) -/

/-- Lines 219-231 of `process_video_complete`: find the first `{` and the
last `}` in the analysis text; when `json_start >= 0` and
`json_end > json_start`, parse the slice with `json.loads` (modelled by
the `loads` parameter, `none` = `json.JSONDecodeError`), falling back to
the raw text; otherwise store the raw text. -/
def extract_gemini_analysis (loads : String → Option JVal)
    (analysis_text : String) : JVal :=
  let json_start : Int := pyFind analysis_text '{'
  let json_end : Int := pyRFind analysis_text '}' + 1
  if 0 ≤ json_start ∧ json_start < json_end then
    match loads (pySlice analysis_text json_start.toNat json_end.toNat) with
    | some j => j
    | none => .str analysis_text
  else
    .str analysis_text

/-! ## The request pipeline (`process_video_complete`, lines 94-286) -/

/-- Lines 206-237 of `process_video_complete`, factored as the single
result-dict assignment they perform: when the key is configured, call the
Gemini collaborator; store the extracted analysis under
`"gemini_analysis"` when the response carries an `analysis` payload
(raising `AttributeError` when that payload is not a string, since
`.find` is called on it), or the response's error under `"gemini_error"`;
when the key is unconfigured, store the explicit marker under
`"gemini_error"`. -/
def gemini_step (gemini_key : Bool)
    (call : String → String → String → String →
      Except String (List (String × JVal)))
    (loads : String → Option JVal)
    (iq transcript astr vstr : String) :
    Except String (String × JVal) :=
  if gemini_key then
    match call iq transcript astr vstr with
    | .error e => .error e
    | .ok g =>
      if hasKey g "analysis" then
        match getVal g "analysis" with
        | some (.str analysis_text) =>
          .ok ("gemini_analysis", extract_gemini_analysis loads analysis_text)
        | _ => .error "AttributeError"
      else
        .ok ("gemini_error", (getVal g "error").getD (.str "Unknown Gemini error"))
  else
    .ok ("gemini_error", .str "Gemini API key not configured")

/-- An incoming `POST /process` request: the optional `video` multipart
part (its client-supplied filename and content size) and the
`interview_question` form field (`""` when absent, as
`request.form.get("interview_question", "")` yields). -/
structure Request : Type where
  video : Option String
  video_size : Nat
  interview_question : String

/-- The external collaborators of one request, as functions of the
arguments the server passes them.  A `.error e` result is an exception
with message `e` escaping the call.

Modelled from the spec (the collaborators live in `audio.py`,
`video.py` and `gemini.py`, which are not under `src/`):
`extract_audio` returns a success boolean and writes the AudioArtifact at
its output path exactly on success (spec section 4.2: on ExtractAudio
failure "AudioArtifact is absent, nothing to clean");
`transcribe_audio` returns an optional transcript; the two feature
analyzers return optional metric dicts; `analyze_video_with_gemini`
returns a dict.  `secure_filename` is werkzeug's sanitizer,
`json_loads` is `json.loads` (`none` = `JSONDecodeError`), `alloc` the
fresh name `tempfile.mkstemp` picks for this request, `encoder` the
ffmpeg subprocess, and `gemini_key` whether `GEMINI_API_KEY` is set. -/
structure Collab : Type where
  secure_filename : String → String
  alloc : String
  encoder : String → String → EncoderOutcome
  extract_audio : String → String → Except String Bool
  transcribe_audio : String → Except String (Option String)
  analyze_audio_features : String → String → Except String (Option JEntries)
  analyze_video_features : String → Except String (Option JEntries)
  gemini_key : Bool
  analyze_video_with_gemini :
    String → String → String → String → Except String (List (String × JVal))
  json_loads : String → Option JVal

/-- An HTTP response: the JSON body (a dict) and the status code. -/
structure Resp : Type where
  body : List (String × JVal)
  status : Nat

/-- The state after lines 108-141 succeeded: the saved upload path
(`original_file_path`), the working media path (`file_path`), the display
filename (`filename`), and the filesystem. -/
structure FrontOk : Type where
  original_file_path : String
  file_path : String
  filename : String
  fs : FS

/-- Lines 108-141: validation, saving the upload, and conditional
normalization.  `Except` error = an early `return` with its response. -/
def front (fs : FS) (req : Request) (c : Collab) :
    Except (Resp × FS) FrontOk :=
  match req.video with
  | none => .error (⟨[("error", .str "No video part in the request")], 400⟩, fs)
  | some fname =>
    if req.interview_question == "" then
      .error (⟨[("error", .str "No interview_question provided")], 400⟩, fs)
    else if fname == "" then
      .error (⟨[("error", .str "No selected file")], 400⟩, fs)
    else if allowed_file fname then
      -- `if file and allowed_file(...)`: the `FileStorage` is truthy iff its
      -- filename is non-empty, which was already checked above.
      if fname == "" then
        -- line 123-124, unreachable here since `fname == ""` was handled
        .error (⟨[("error", .str "Filename missing")], 400⟩, fs)
      else
        let filename := c.secure_filename fname
        let file_path := UPLOAD_FOLDER ++ "/" ++ filename
        let fs1 := fs.write file_path req.video_size
        if pyEndsWith (pyLower filename) ".webm" then
          match convert_webm_to_mp4 c.encoder fs1 c.alloc file_path with
          | (some mp4_path, fs2) =>
            .ok ⟨file_path, mp4_path, basename mp4_path, fs2⟩
          | (none, fs2) =>
            .error (⟨[("error", .str "Failed to convert .webm file to .mp4")], 500⟩, fs2)
        else
          .ok ⟨file_path, file_path, filename, fs1⟩
    else
      .error (⟨[("error", .str "File type not allowed")], 400⟩, fs)

/-- The `except Exception` handler's cleanup (lines 263-274): remove the
audio artifact if present, then remove the converted file when it differs
from the original upload. -/
def fault_cleanup (fs : FS) (st : FrontOk) : FS :=
  let fs1 := fs.condRemove OUTPUT_AUDIO_FILENAME
  if st.original_file_path != st.file_path && fs1.contains st.file_path then
    fs1.remove st.file_path
  else fs1

/-- The `except Exception` handler's response (lines 276-284). -/
def fault_resp (e : String) (filename : String) : Resp :=
  ⟨[("error", .str ("Error processing video: " ++ e)),
    ("video_file", .str filename)], 500⟩

/-- Lines 143-284: the `results` dict and the `try` block of processing
stages, with the `except Exception` handler applied to any collaborator
exception. -/
def stages (st : FrontOk) (iq : String) (c : Collab) : Resp × FS :=
  let results0 : List (String × JVal) :=
    [("video_file", .str st.filename),
     ("interview_question", .str iq),
     ("status", .str "processing")]
  match c.extract_audio st.file_path OUTPUT_AUDIO_FILENAME with
  | .error e => (fault_resp e st.filename, fault_cleanup st.fs st)
  | .ok false =>
    (⟨[("error", .str "Audio extraction failed"),
       ("video_file", .str st.filename)], 500⟩, st.fs)
  | .ok true =>
    -- Modelled from the spec: a successful `extract_audio` writes the
    -- AudioArtifact at `OUTPUT_AUDIO_FILENAME` (its size is immaterial).
    let fsA := st.fs.write OUTPUT_AUDIO_FILENAME 1
    match c.transcribe_audio OUTPUT_AUDIO_FILENAME with
    | .error e => (fault_resp e st.filename, fault_cleanup fsA st)
    | .ok none =>
      let fsB := fsA.condRemove OUTPUT_AUDIO_FILENAME
      (⟨[("error", .str "Transcription failed"),
         ("video_file", .str st.filename)], 500⟩, fsB)
    | .ok (some transcript) =>
      let results1 := setKey results0 "transcript" (.str transcript)
      match c.analyze_audio_features OUTPUT_AUDIO_FILENAME transcript with
      | .error e => (fault_resp e st.filename, fault_cleanup fsA st)
      | .ok am =>
        let results2 :=
          match am with
          | some e => if e.isNil then results1
                      else setKey results1 "audio_metrics" (.obj e)
          | none => results1
        match c.analyze_video_features st.file_path with
        | .error e => (fault_resp e st.filename, fault_cleanup fsA st)
        | .ok vm =>
          let results3 :=
            match vm with
            | some e =>
              if !e.isNil && !(e.hasKey "error") then
                setKey results2 "video_metrics" (.obj e)
              else results2
            | none => results2
          let audio_metrics_str :=
            match am with
            | some e => if e.isNil then "" else formatAudioMetrics e
            | none => ""
          let vstrE : Except String String :=
            match vm with
            | some e =>
              if !e.isNil && !(e.hasKey "error") then formatVideoMetricsE e
              else .ok ""
            | none => .ok ""
          match vstrE with
          | .error e => (fault_resp e st.filename, fault_cleanup fsA st)
          | .ok video_metrics_str =>
            match gemini_step c.gemini_key c.analyze_video_with_gemini
                c.json_loads iq transcript audio_metrics_str
                video_metrics_str with
            | .error e => (fault_resp e st.filename, fault_cleanup fsA st)
            | .ok kv =>
              let results4 := setKey results3 kv.1 kv.2
              let fsB := fsA.condRemove OUTPUT_AUDIO_FILENAME
              let fsC :=
                if st.original_file_path != st.file_path &&
                    fsB.contains st.original_file_path then
                  fsB.remove st.original_file_path
                else fsB
              (⟨setKey results4 "status" (.str "complete"), 200⟩, fsC)

/-- Function `process_video_complete` (lines 94-286): the full request handler. -/
def process_video_complete (fs : FS) (req : Request) (c : Collab) :
    Resp × FS :=
  match front fs req c with
  | .error r => r
  | .ok st => stages st req.interview_question c

/-! ## Supporting lemmas -/

theorem any_filter_fst {α : Type} (l : List (String × α)) (p q : String) :
    ((l.filter (fun x => x.1 != p)).any (fun x => x.1 == q)) =
      if p == q then false else l.any (fun x => x.1 == q) := by
  induction l with
  | nil => by_cases h : p = q <;> simp [h]
  | cons a t ih =>
    by_cases hap : a.1 = p
    · have h1 : (a.1 != p) = false := by simp [hap]
      rw [List.filter_cons, h1]
      simp only [Bool.false_eq_true, if_false]
      rw [ih, List.any_cons]
      by_cases hpq : p = q
      · simp [hpq]
      · have h2 : (a.1 == q) = false := by
          have : a.1 ≠ q := fun he => hpq (hap ▸ he)
          simp [this]
        simp [hpq, h2]
    · have h1 : (a.1 != p) = true := by simp [hap]
      rw [List.filter_cons, h1]
      simp only [if_true]
      rw [List.any_cons, List.any_cons, ih]
      by_cases hpq : p = q
      · have h2 : (a.1 == q) = false := by
          have : a.1 ≠ q := fun he => hap (he.trans hpq.symm)
          simp [this]
        simp [hpq, h2]
      · simp [hpq]

theorem filter_ne_of_not_any {α : Type} (l : List (String × α)) (p : String)
    (h : l.any (fun x => x.1 == p) = false) :
    l.filter (fun x => x.1 != p) = l := by
  induction l with
  | nil => rfl
  | cons a t ih =>
    rw [List.any_cons] at h
    have h1 : (a.1 == p) = false := by
      cases hc : (a.1 == p)
      · rfl
      · rw [hc] at h; simp at h
    have h2 : t.any (fun x => x.1 == p) = false := by
      cases hc : t.any (fun x => x.1 == p)
      · rfl
      · rw [hc] at h; simp at h
    have h3 : (a.1 != p) = true := by simp [bne, h1]
    rw [List.filter_cons, h3]
    simp [ih h2]

theorem FS.contains_write (fs : FS) (p : String) (n : Nat) (q : String) :
    (fs.write p n).contains q = (p == q || fs.contains q) := by
  show ((p, n) :: fs.files.filter (fun x => x.1 != p)).any (fun x => x.1 == q) = _
  rw [List.any_cons, any_filter_fst]
  by_cases h : p = q <;> simp [h, FS.contains]

theorem FS.contains_remove (fs : FS) (p q : String) :
    (fs.remove p).contains q = (!(p == q) && fs.contains q) := by
  show (fs.files.filter (fun x => x.1 != p)).any (fun x => x.1 == q) = _
  rw [any_filter_fst]
  by_cases h : p = q <;> simp [h, FS.contains]

theorem FS.condRemove_eq_remove (fs : FS) (p : String) :
    fs.condRemove p = fs.remove p := by
  unfold FS.condRemove
  cases hc : fs.contains p
  · simp only [Bool.false_eq_true, if_false]
    unfold FS.contains at hc
    unfold FS.remove
    cases fs with
    | mk files =>
      simp only at hc ⊢
      rw [filter_ne_of_not_any files p hc]
  · simp

theorem FS.contains_condRemove (fs : FS) (p q : String) :
    (fs.condRemove p).contains q = (!(p == q) && fs.contains q) := by
  rw [FS.condRemove_eq_remove, FS.contains_remove]

theorem FS.size_write_self (fs : FS) (p : String) (n : Nat) :
    (fs.write p n).size p = n := by
  simp [FS.write, FS.size, List.find?]

theorem hasKey_setKey (d : List (String × JVal)) (k : String) (v : JVal)
    (q : String) :
    hasKey (setKey d k v) q = (k == q || hasKey d q) := by
  unfold setKey
  by_cases h : hasKey d k = true
  · simp only [h, if_true]
    have hmap : ∀ l : List (String × JVal),
        (l.map (fun kv => if kv.1 == k then (k, v) else kv)).any
            (fun kv => kv.1 == q) =
          l.any (fun kv => kv.1 == q) := by
      intro l
      induction l with
      | nil => rfl
      | cons a t ih =>
        rw [List.map_cons, List.any_cons, List.any_cons, ih]
        by_cases ha : a.1 = k
        · have h1 : (a.1 == k) = true := by simp [ha]
          simp only [h1, if_true]
          rw [ha]
        · have h1 : (a.1 == k) = false := by simp [ha]
          simp only [h1, Bool.false_eq_true, if_false]
    unfold hasKey
    rw [hmap]
    by_cases hkq : k = q
    · subst hkq
      unfold hasKey at h
      simp [h]
    · simp [hkq, hasKey]
  · have hf : hasKey d k = false := by
      cases hc : hasKey d k
      · rfl
      · exact absurd hc h
    simp only [hf, Bool.false_eq_true, if_false]
    unfold hasKey
    rw [List.any_append]
    simp [Bool.or_comm]

theorem hasKey_dropKey (d : List (String × JVal)) (dk k : String) :
    hasKey (dropKey d dk) k = if dk == k then false else hasKey d k := by
  unfold hasKey dropKey
  exact any_filter_fst d dk k

theorem filter_map_set (l : List (String × JVal)) (k : String) (v : JVal)
    (dk : String) (hkdk : (k == dk) = false) :
    (l.map (fun kv => if kv.1 == k then (k, v) else kv)).filter
        (fun kv => kv.1 != dk) =
      (l.filter (fun kv => kv.1 != dk)).map
        (fun kv => if kv.1 == k then (k, v) else kv) := by
  induction l with
  | nil => rfl
  | cons a t ih =>
    rw [List.map_cons, List.filter_cons, List.filter_cons]
    by_cases hak : a.1 = k
    · have h1 : (a.1 == k) = true := by simp [hak]
      have h2 : ((k, v).1 != dk) = true := by simp [bne, hkdk]
      have h3 : (a.1 != dk) = true := by
        have : (a.1 == dk) = false := by rw [hak]; exact hkdk
        simp [bne, this]
      simp only [h1, if_true, h2, h3, List.map_cons, ih]
    · have h1 : (a.1 == k) = false := by simp [hak]
      simp only [h1, Bool.false_eq_true, if_false]
      by_cases hadk : a.1 = dk
      · have h2 : (a.1 != dk) = false := by simp [bne, hadk]
        simp only [h2, Bool.false_eq_true, if_false, ih]
      · have h2 : (a.1 != dk) = true := by simp [bne, hadk]
        simp only [h2, if_true, List.map_cons, ih]
        simp [h1]

theorem dropKey_setKey_ne (d : List (String × JVal)) (k : String) (v : JVal)
    (dk : String) (h : (k == dk) = false) :
    dropKey (setKey d k v) dk = setKey (dropKey d dk) k v := by
  have hkdk : k ≠ dk := by
    intro he
    rw [he] at h
    simp at h
  have hdkk : (dk == k) = false := by
    cases hc : (dk == k)
    · rfl
    · have hdkeq : dk = k := by simpa using hc
      exact absurd hdkeq.symm hkdk
  have hkd : hasKey (dropKey d dk) k = hasKey d k := by
    rw [hasKey_dropKey, if_neg (by simp [hdkk])]
  unfold setKey
  rw [hkd]
  by_cases hd : hasKey d k = true
  · rw [if_pos hd, if_pos hd]
    unfold dropKey
    exact filter_map_set d k v dk h
  · rw [if_neg hd, if_neg hd]
    unfold dropKey
    rw [List.filter_append]
    have h2 : ((k, v).1 != dk) = true := by simp [bne, h]
    simp [h2]

/-! ## Concrete collaborator assignments used by witnesses and
counterexamples -/

/-- A collaborator assignment in which every invoked stage succeeds and
the Gemini key is not configured (the Scenario-D shape of the spec). -/
def happyCollab : Collab where
  secure_filename := fun s => s
  alloc := "uploads/tmp_alpha.mp4"
  encoder := fun _ _ => .ok (some 10)
  extract_audio := fun _ _ => .ok true
  transcribe_audio := fun _ => .ok (some "hello world")
  analyze_audio_features := fun _ _ =>
    .ok (some (.cons "speech_rate" (.int 2) .nil))
  analyze_video_features := fun _ =>
    .ok (some (.cons "emotion_distribution"
      (.obj (.cons "happy" (.int 3) .nil)) .nil))
  gemini_key := false
  analyze_video_with_gemini := fun _ _ _ _ => .ok [("analysis", .str "fine")]
  json_loads := fun _ => none

/-! ## Claim C3 -/

/-- C3 counterexample: when the encoder exits with status zero but leaves
a zero-byte output (the output-validation failure of lines 75-80),
`convert_webm_to_mp4` returns the failure value `None` but does *not*
delete the zero-byte `.mp4` artifact: it remains on disk, contradicting
the claim that on every failure the partial output is deleted. -/
theorem c3_counterexample :
    (convert_webm_to_mp4 (fun _ _ => .ok (some 0)) ⟨[]⟩
        "uploads/tmp1.mp4" "uploads/in.webm").1 = none ∧
    (convert_webm_to_mp4 (fun _ _ => .ok (some 0)) ⟨[]⟩
        "uploads/tmp1.mp4" "uploads/in.webm").2.contains "uploads/tmp1.mp4" = true ∧
    (convert_webm_to_mp4 (fun _ _ => .ok (some 0)) ⟨[]⟩
        "uploads/tmp1.mp4" "uploads/in.webm").2.size "uploads/tmp1.mp4" = 0 := by
  refine ⟨rfl, by decide, by decide⟩

/-- C3 (amended): on an encoder failure signalled by an exception
(non-zero exit or any other exception) `convert_webm_to_mp4` returns
`None` and the output file is deleted; when the encoder exits zero, the
conversion succeeds exactly when the output exists and is non-empty, and
on the output-validation failure the function returns `None` without
deleting, so a zero-byte artifact remains on disk whenever the output
file exists. -/
theorem c3_amended (encoder : String → String → EncoderOutcome) (fs : FS)
    (alloc webm_path : String) :
    match encoder webm_path alloc with
    | .procError _ =>
      (convert_webm_to_mp4 encoder fs alloc webm_path).1 = none ∧
      (convert_webm_to_mp4 encoder fs alloc webm_path).2.contains alloc = false
    | .raised _ =>
      (convert_webm_to_mp4 encoder fs alloc webm_path).1 = none ∧
      (convert_webm_to_mp4 encoder fs alloc webm_path).2.contains alloc = false
    | .ok none =>
      (convert_webm_to_mp4 encoder fs alloc webm_path).1 = none ∧
      (convert_webm_to_mp4 encoder fs alloc webm_path).2.contains alloc = false
    | .ok (some n) =>
      if n = 0 then
        (convert_webm_to_mp4 encoder fs alloc webm_path).1 = none ∧
        (convert_webm_to_mp4 encoder fs alloc webm_path).2.contains alloc = true ∧
        (convert_webm_to_mp4 encoder fs alloc webm_path).2.size alloc = 0
      else
        (convert_webm_to_mp4 encoder fs alloc webm_path).1 = some alloc ∧
        (convert_webm_to_mp4 encoder fs alloc webm_path).2.contains alloc = true ∧
        (convert_webm_to_mp4 encoder fs alloc webm_path).2.size alloc = n := by
  cases h : encoder webm_path alloc with
  | ok left =>
    cases left with
    | none =>
      have hcf : ((fs.write alloc 0).remove alloc).contains alloc = false := by
        simp [FS.contains_remove]
      constructor <;>
        simp [convert_webm_to_mp4, h, applyLeft, hcf]
    | some n =>
      by_cases hn : n = 0
      · subst hn
        simp [convert_webm_to_mp4, h, applyLeft, FS.contains_write,
          FS.size_write_self]
      · have hcond : ((FS.write (FS.write fs alloc 0) alloc n).contains alloc &&
            (FS.write (FS.write fs alloc 0) alloc n).size alloc != 0) = true := by
          simp [FS.contains_write, FS.size_write_self, hn]
        simp [convert_webm_to_mp4, h, applyLeft, hn, hcond,
          FS.contains_write, FS.size_write_self]
  | procError left =>
    cases left with
    | none =>
      simp [convert_webm_to_mp4, h, applyLeft, FS.contains_condRemove]
    | some n =>
      simp [convert_webm_to_mp4, h, applyLeft, FS.contains_condRemove]
  | raised left =>
    cases left with
    | none =>
      simp [convert_webm_to_mp4, h, applyLeft, FS.contains_condRemove]
    | some n =>
      simp [convert_webm_to_mp4, h, applyLeft, FS.contains_condRemove]

/-! ## Claim C6 -/

/-- Modelled from the spec: the claimed extraction rule, stated directly —
when the text has a first `{` at index `i` and a last `}` at index `j`
with `i ≤ j`, parse the inclusive substring from `i` to `j`, falling back
to the raw text on parse failure; otherwise store the raw text. -/
def spec_extract_analysis (loads : String → Option JVal) (s : String) : JVal :=
  match firstIdx? '{' s.data, lastIdx? '}' s.data with
  | some i, some j =>
    if i ≤ j then
      match loads ⟨(s.data.drop i).take (j - i + 1)⟩ with
      | some v => v
      | none => .str s
    else .str s
  | _, _ => .str s

/-- C6: the code's brace-delimited JSON extraction (lines 215-231)
coincides with the spec's rule on every analysis payload and every
parser: the parse of the substring from the first `{` to the last `}`
inclusive when the braces exist in order (falling back to the raw text on
parse failure), the raw text otherwise. -/
theorem c6_theorem (loads : String → Option JVal) (s : String) :
    extract_gemini_analysis loads s = spec_extract_analysis loads s := by
  unfold extract_gemini_analysis spec_extract_analysis pyFind pyRFind
  cases hf : firstIdx? '{' s.data with
  | none =>
    cases hl : lastIdx? '}' s.data with
    | none => simp
    | some j => simp
  | some i =>
    cases hl : lastIdx? '}' s.data with
    | none =>
      have : ¬ ((0 : Int) ≤ (i : Int) ∧ (i : Int) < -1 + 1) := by omega
      simp [this]
    | some j =>
      by_cases hij : i ≤ j
      · have hcond : (0 : Int) ≤ (i : Int) ∧ (i : Int) < (j : Int) + 1 := by
          constructor
          · exact Int.natCast_nonneg i
          · omega
        have ht1 : ((i : Int)).toNat = i := by simp
        have ht2 : ((j : Int) + 1).toNat = j + 1 := by omega
        have htk : j + 1 - i = j - i + 1 := by omega
        simp only [hcond, and_self, if_true, if_pos hcond, pySlice, ht1, ht2, htk]
        simp [hij]
      · have hcond : ¬ ((0 : Int) ≤ (i : Int) ∧ (i : Int) < (j : Int) + 1) := by
          omega
        have hlt : ¬ ((i : Int) < (j : Int) + 1) := by omega
        simp [hcond, hij, hlt]

/-! ## Claim C8 -/

/-- The entries of a value when it is a mapping. -/
def entriesOf : JVal → JEntries
  | .obj e => e
  | _ => .nil

/-- Structural description of the audio block's lines: one inline
`- Label: value` line per metric. -/
def audioLines : JEntries → String
  | .nil => ""
  | .cons k v rest =>
    "- " ++ pyTitle (pyReplaceChar k '_' ' ') ++ ": " ++ pyStr v ++ "\n" ++
      audioLines rest

/-- Structural description of the video block's lines: the
`"emotion_distribution"` key (selected by name) gets the label followed
by an indented sub-list of its entries; every other metric is an inline
`- Label: value` line. -/
def videoLines : JEntries → String
  | .nil => ""
  | .cons k v rest =>
    (if k == "emotion_distribution" then
      "- " ++ pyTitle (pyReplaceChar k '_' ' ') ++ ":\n" ++ emoLines "" (entriesOf v)
    else
      "- " ++ pyTitle (pyReplaceChar k '_' ' ') ++ ": " ++ pyStr v ++ "\n") ++
      videoLines rest

/-- Modelled from the spec: the claimed rendering rule for a single
metric — a title-cased label with underscores replaced by spaces, and a
nested mapping value rendered as the label followed by an indented
sub-list of `key: value` lines. -/
def spec_metric_line (k : String) (v : JVal) : String :=
  match v with
  | .obj sub =>
    "- " ++ pyTitle (pyReplaceChar k '_' ' ') ++ ":\n" ++ emoLines "" sub
  | _ => "- " ++ pyTitle (pyReplaceChar k '_' ' ') ++ ": " ++ pyStr v ++ "\n"

theorem audioFmtAux_eq : ∀ (m : JEntries) (acc : String),
    audioFmtAux acc m = acc ++ audioLines m
  | .nil, acc => by simp [audioFmtAux, audioLines]
  | .cons k v rest, acc => by
    rw [audioFmtAux, audioLines, audioFmtAux_eq rest]
    simp [String.append_assoc]

theorem emoLines_eq : ∀ (sub : JEntries) (acc : String),
    emoLines acc sub = acc ++ emoLines "" sub
  | .nil, acc => by simp [emoLines]
  | .cons k v rest, acc => by
    rw [emoLines, emoLines, emoLines_eq rest, emoLines_eq rest ("" ++ "  - " ++ k ++ ": " ++ pyStr v ++ "\n")]
    simp [String.append_assoc]

theorem videoFmtAux_eq : ∀ (m : JEntries),
    emotionEntriesAreDicts m = true →
    ∀ acc : String, videoFmtAux acc m = .ok (acc ++ videoLines m)
  | .nil, _, acc => by simp [videoFmtAux, videoLines]
  | .cons k v rest, hwf, acc => by
    rw [emotionEntriesAreDicts] at hwf
    have hwf2 : emotionEntriesAreDicts rest = true :=
      (Bool.and_eq_true _ _ |>.mp hwf).2
    have hwf1 := (Bool.and_eq_true _ _ |>.mp hwf).1
    by_cases hk : (k == "emotion_distribution") = true
    · rw [hk] at hwf1
      simp only [Bool.not_true, Bool.false_or] at hwf1
      cases v with
      | str s => simp [JVal.isObj] at hwf1
      | int n => simp [JVal.isObj] at hwf1
      | obj sub =>
        rw [videoFmtAux, if_pos hk, videoLines, if_pos hk]
        rw [videoFmtAux_eq rest hwf2, emoLines_eq, entriesOf]
        simp [String.append_assoc]
    · cases v with
      | str s =>
        rw [videoFmtAux, if_neg hk, videoLines, if_neg hk,
          videoFmtAux_eq rest hwf2] <;> simp [String.append_assoc]
      | int n =>
        rw [videoFmtAux, if_neg hk, videoLines, if_neg hk,
          videoFmtAux_eq rest hwf2] <;> simp [String.append_assoc]
      | obj sub =>
        rw [videoFmtAux, if_neg hk, videoLines, if_neg hk,
          videoFmtAux_eq rest hwf2]
        simp [String.append_assoc]

/-- C8 counterexample: an audio metric whose value is a nested mapping is
rendered inline through Python string conversion of the dict, not as the
label followed by an indented sub-list that the claim prescribes: the
block the code builds differs from the claimed rendering at this input. -/
theorem c8_counterexample :
    formatAudioMetrics
        (.cons "pitch_stats" (.obj (.cons "mean" (.int 1) .nil)) .nil) =
      "Audio Analysis:\n- Pitch Stats: \x7b\x27mean\x27: 1\x7d\n" ∧
    "Audio Analysis:\n" ++
        spec_metric_line "pitch_stats" (.obj (.cons "mean" (.int 1) .nil)) =
      "Audio Analysis:\n- Pitch Stats:\n  - mean: 1\n" ∧
    formatAudioMetrics
        (.cons "pitch_stats" (.obj (.cons "mean" (.int 1) .nil)) .nil) ≠
      "Audio Analysis:\n" ++
        spec_metric_line "pitch_stats" (.obj (.cons "mean" (.int 1) .nil)) := by
  refine ⟨by decide, by decide, by decide⟩

/-- C8 (amended): every metric key, audio or video, is rendered as a
title-cased label with underscores replaced by spaces; but the indented
sub-list rendering is applied only in the video block and only to the key
`"emotion_distribution"` (selected by key name, its value required to be
a mapping); every other value — nested mapping or not — is rendered
inline on the label's line through Python string conversion. -/
theorem c8_amended (m1 m2 : JEntries)
    (hwf : emotionEntriesAreDicts m2 = true) :
    formatAudioMetrics m1 = "Audio Analysis:\n" ++ audioLines m1 ∧
    formatVideoMetricsE m2 = .ok ("Video Analysis:\n" ++ videoLines m2) := by
  constructor
  · exact audioFmtAux_eq m1 "Audio Analysis:\n"
  · exact videoFmtAux_eq m2 hwf "Video Analysis:\n"

/-- C8 witness: the amended statement at a concrete pair of metric
dicts. -/
theorem c8_witness :
    formatAudioMetrics (.cons "speech_rate" (.int 2) .nil) =
      "Audio Analysis:\n" ++ audioLines (.cons "speech_rate" (.int 2) .nil) ∧
    formatVideoMetricsE
        (.cons "emotion_distribution" (.obj (.cons "happy" (.int 3) .nil)) .nil) =
      .ok ("Video Analysis:\n" ++ videoLines
        (.cons "emotion_distribution" (.obj (.cons "happy" (.int 3) .nil)) .nil)) :=
  c8_amended (.cons "speech_rate" (.int 2) .nil)
    (.cons "emotion_distribution" (.obj (.cons "happy" (.int 3) .nil)) .nil)
    (by decide)

/-! ## Claim C5 -/

/-- C5: a request with no video part, an empty filename, a disallowed
extension, or an empty prompt string is answered with HTTP 400 and the
filesystem is left untouched — in particular no upload is saved to the
working area. -/
theorem c5_theorem (fs : FS) (req : Request) (c : Collab)
    (h : req.video = none ∨ req.video = some "" ∨
      (∃ f, req.video = some f ∧ allowed_file f = false) ∨
      req.interview_question = "") :
    (process_video_complete fs req c).1.status = 400 ∧
      (process_video_complete fs req c).2 = fs := by
  unfold process_video_complete front
  rcases h with h | h | ⟨f, hf, hal⟩ | h
  · rw [h]
    constructor <;> trivial
  · rw [h]
    by_cases hq : (req.interview_question == "") = true
    · simp only [hq, if_true]
      constructor <;> trivial
    · simp only [if_neg hq]
      simp only [show (("" : String) == "") = true from rfl, if_true]
      constructor <;> trivial
  · rw [hf]
    by_cases hq : (req.interview_question == "") = true
    · simp only [hq, if_true]
      constructor <;> trivial
    · simp only [if_neg hq]
      by_cases hfe : (f == "") = true
      · simp only [hfe, if_true]
        constructor <;> trivial
      · simp only [if_neg hfe]
        simp only [if_neg (by simp [hal] : ¬ (allowed_file f = true))]
        constructor <;> trivial
  · cases hv : req.video with
    | none => constructor <;> trivial
    | some f =>
      simp only [show (req.interview_question == "") = true by simp [h], if_true]
      constructor <;> trivial

/-- C5 witness: a concrete disallowed-extension request is rejected with
400 and the filesystem is unchanged. -/
theorem c5_witness :
    (process_video_complete ⟨[]⟩ ⟨some "notes.txt", 3, "Q"⟩ happyCollab).1.status
        = 400 ∧
      (process_video_complete ⟨[]⟩ ⟨some "notes.txt", 3, "Q"⟩ happyCollab).2
        = ⟨[]⟩ :=
  c5_theorem ⟨[]⟩ ⟨some "notes.txt", 3, "Q"⟩ happyCollab
    (Or.inr (Or.inr (Or.inl ⟨"notes.txt", rfl, by decide⟩)))

/-! ## Claim C10 -/

theorem front_valid_nonwebm (fs : FS) (req : Request) (c : Collab)
    (f : String) (hv : req.video = some f) (hf : (f == "") = false)
    (ha : allowed_file f = true)
    (hq : (req.interview_question == "") = false)
    (hw : pyEndsWith (pyLower (c.secure_filename f)) ".webm" = false) :
    front fs req c =
      .ok ⟨UPLOAD_FOLDER ++ "/" ++ c.secure_filename f,
        UPLOAD_FOLDER ++ "/" ++ c.secure_filename f, c.secure_filename f,
        fs.write (UPLOAD_FOLDER ++ "/" ++ c.secure_filename f)
          req.video_size⟩ := by
  unfold front
  rw [hv]
  simp only [if_neg (by simp [hq] : ¬ (req.interview_question == "") = true),
    if_neg (by simp [hf] : ¬ (f == "") = true), if_pos ha,
    if_neg (by simp [hw] :
      ¬ (pyEndsWith (pyLower (c.secure_filename f)) ".webm") = true)]

theorem front_valid_webm (fs : FS) (req : Request) (c : Collab)
    (f : String) (hv : req.video = some f) (hf : (f == "") = false)
    (ha : allowed_file f = true)
    (hq : (req.interview_question == "") = false)
    (hw : pyEndsWith (pyLower (c.secure_filename f)) ".webm" = true) :
    front fs req c =
      (match convert_webm_to_mp4 c.encoder
          (fs.write (UPLOAD_FOLDER ++ "/" ++ c.secure_filename f)
            req.video_size)
          c.alloc (UPLOAD_FOLDER ++ "/" ++ c.secure_filename f) with
      | (some mp4_path, fs2) =>
        .ok ⟨UPLOAD_FOLDER ++ "/" ++ c.secure_filename f, mp4_path,
          basename mp4_path, fs2⟩
      | (none, fs2) =>
        .error (⟨[("error", .str "Failed to convert .webm file to .mp4")],
          500⟩, fs2)) := by
  unfold front
  rw [hv]
  simp only [if_neg (by simp [hq] : ¬ (req.interview_question == "") = true),
    if_neg (by simp [hf] : ¬ (f == "") = true), if_pos ha, if_pos hw]

/-- C10: for a request passing validation, the normalization stage runs
iff the sanitized filename, lowercased, ends with ".webm".  When it does
not, the outcome is independent of the encoder and of the temp-name
allocation — the upload is handed on unconverted at its original saved
path; when it does, the front stage is exactly the saved upload followed
by `convert_webm_to_mp4` on it. -/
theorem c10_theorem (fs : FS) (req : Request) (c : Collab) (f : String)
    (hv : req.video = some f) (hf : (f == "") = false)
    (ha : allowed_file f = true)
    (hq : (req.interview_question == "") = false) :
    (pyEndsWith (pyLower (c.secure_filename f)) ".webm" = false →
      ∀ (e2 : String → String → EncoderOutcome) (a2 : String),
        front fs req { c with encoder := e2, alloc := a2 } =
          .ok ⟨UPLOAD_FOLDER ++ "/" ++ c.secure_filename f,
            UPLOAD_FOLDER ++ "/" ++ c.secure_filename f,
            c.secure_filename f,
            fs.write (UPLOAD_FOLDER ++ "/" ++ c.secure_filename f)
              req.video_size⟩) ∧
    (pyEndsWith (pyLower (c.secure_filename f)) ".webm" = true →
      front fs req c =
        (match convert_webm_to_mp4 c.encoder
            (fs.write (UPLOAD_FOLDER ++ "/" ++ c.secure_filename f)
              req.video_size)
            c.alloc (UPLOAD_FOLDER ++ "/" ++ c.secure_filename f) with
        | (some mp4_path, fs2) =>
          .ok ⟨UPLOAD_FOLDER ++ "/" ++ c.secure_filename f, mp4_path,
            basename mp4_path, fs2⟩
        | (none, fs2) =>
          .error (⟨[("error", .str "Failed to convert .webm file to .mp4")],
            500⟩, fs2))) := by
  constructor
  · intro hw e2 a2
    exact front_valid_nonwebm fs req { c with encoder := e2, alloc := a2 }
      f hv hf ha hq hw
  · intro hw
    exact front_valid_webm fs req c f hv hf ha hq hw

/-- C10 witness: a concrete valid `.mp4` upload is saved and handed on
unconverted (for an arbitrary encoder — here the happy one). -/
theorem c10_witness :
    front ⟨[]⟩ ⟨some "clip.mp4", 7, "Q"⟩ happyCollab =
      .ok ⟨"uploads/clip.mp4", "uploads/clip.mp4", "clip.mp4",
        FS.write ⟨[]⟩ "uploads/clip.mp4" 7⟩ :=
  (c10_theorem ⟨[]⟩ ⟨some "clip.mp4", 7, "Q"⟩ happyCollab "clip.mp4" rfl
    (by decide) (by decide) (by decide)).1 (by decide)
    happyCollab.encoder happyCollab.alloc

/-! ## Claim C2 -/

theorem fault_cleanup_audio (fs : FS) (st : FrontOk) :
    (fault_cleanup fs st).contains OUTPUT_AUDIO_FILENAME = false := by
  simp only [fault_cleanup]
  split
  · simp [FS.contains_remove, FS.contains_condRemove]
  · simp [FS.contains_condRemove]

theorem convert_contains_other (encoder : String → String → EncoderOutcome)
    (fs : FS) (alloc webm q : String) (hq : (alloc == q) = false)
    (h : fs.contains q = false) :
    (convert_webm_to_mp4 encoder fs alloc webm).2.contains q = false := by
  have h2 : ∀ left, (applyLeft (fs.write alloc 0) alloc left).contains q
      = false := by
    intro left
    cases left with
    | none => simp [applyLeft, FS.contains_remove, FS.contains_write, hq, h]
    | some n => simp [applyLeft, FS.contains_write, hq, h]
  cases henc : encoder webm alloc with
  | ok left =>
    simp only [convert_webm_to_mp4, henc]
    split
    · exact h2 left
    · exact h2 left
  | procError left =>
    simp only [convert_webm_to_mp4, henc]
    rw [FS.contains_condRemove]
    simp [h2 left]
  | raised left =>
    simp only [convert_webm_to_mp4, henc]
    rw [FS.contains_condRemove]
    simp [h2 left]

theorem stages_audio_clean (st : FrontOk) (iq : String) (c : Collab)
    (h0 : st.fs.contains OUTPUT_AUDIO_FILENAME = false) :
    (stages st iq c).2.contains OUTPUT_AUDIO_FILENAME = false := by
  simp only [stages]
  repeat' split
  all_goals
    first
    | exact fault_cleanup_audio _ _
    | exact h0
    | (rw [FS.contains_remove]; simp [FS.contains_condRemove])
    | simp [FS.contains_condRemove]

/-- C2: for every request — success, stage-failure abort (including
audio-extraction failure), or unhandled fault — the well-known audio
artifact path does not exist once the response is returned, provided it
did not exist beforehand and the request's upload and temp paths do not
collide with it (the spec's collision-freedom assumption).  The behavior
of `extract_audio` is spec-modelled: it creates the artifact exactly on
success. -/
theorem c2_theorem (fs : FS) (req : Request) (c : Collab)
    (h0 : fs.contains OUTPUT_AUDIO_FILENAME = false)
    (h1 : ∀ f, req.video = some f →
      ((UPLOAD_FOLDER ++ "/" ++ c.secure_filename f) == OUTPUT_AUDIO_FILENAME)
        = false)
    (h2 : (c.alloc == OUTPUT_AUDIO_FILENAME) = false) :
    (process_video_complete fs req c).2.contains OUTPUT_AUDIO_FILENAME
      = false := by
  unfold process_video_complete front
  cases hv : req.video with
  | none => exact h0
  | some f =>
    have hsave : (fs.write (UPLOAD_FOLDER ++ "/" ++ c.secure_filename f)
        req.video_size).contains OUTPUT_AUDIO_FILENAME = false := by
      rw [FS.contains_write]
      simp [h1 f hv, h0]
    by_cases hq : (req.interview_question == "") = true
    · simp only [hq, if_true]
      exact h0
    · simp only [if_neg hq]
      by_cases hfe : (f == "") = true
      · simp only [hfe, if_true]
        exact h0
      · simp only [if_neg hfe]
        by_cases hal : allowed_file f = true
        · simp only [if_pos hal]
          by_cases hw : pyEndsWith (pyLower (c.secure_filename f)) ".webm"
              = true
          · simp only [if_pos hw]
            rcases hcv : convert_webm_to_mp4 c.encoder
                (fs.write (UPLOAD_FOLDER ++ "/" ++ c.secure_filename f)
                  req.video_size)
                c.alloc (UPLOAD_FOLDER ++ "/" ++ c.secure_filename f)
              with ⟨o, fs2⟩
            have hfs2 : fs2.contains OUTPUT_AUDIO_FILENAME = false := by
              have := convert_contains_other c.encoder
                (fs.write (UPLOAD_FOLDER ++ "/" ++ c.secure_filename f)
                  req.video_size)
                c.alloc (UPLOAD_FOLDER ++ "/" ++ c.secure_filename f)
                OUTPUT_AUDIO_FILENAME h2 hsave
              rw [hcv] at this
              exact this
            cases o with
            | some mp4 => exact stages_audio_clean _ _ _ hfs2
            | none => exact hfs2
          · simp only [if_neg hw]
            exact stages_audio_clean _ _ _ hsave
        · simp only [if_neg hal]
          exact h0

/-- C2 witness: a concrete successful `.mp4` run leaves no audio artifact
behind. -/
theorem c2_witness :
    (process_video_complete ⟨[]⟩ ⟨some "clip.mp4", 7, "Q"⟩
        happyCollab).2.contains OUTPUT_AUDIO_FILENAME = false :=
  c2_theorem ⟨[]⟩ ⟨some "clip.mp4", 7, "Q"⟩ happyCollab (by decide)
    (by intro f hf; injection hf with h; subst h; decide) (by decide)

/-! ## Claim C4 -/

theorem front_error_shape (fs : FS) (req : Request) (c : Collab)
    (r : Resp × FS) (h : front fs req c = .error r) :
    r.1.status = 400 ∨
      r.1.body = [("error", .str "Failed to convert .webm file to .mp4")] := by
  unfold front at h
  repeat'
    first
    | (injection h with h2; rw [← h2]; exact Or.inl rfl)
    | (injection h with h2; rw [← h2]; exact Or.inr rfl)
    | injection h
    | simp at h
    | split at h

theorem gemini_step_keys (gk : Bool)
    (call : String → String → String → String →
      Except String (List (String × JVal)))
    (loads : String → Option JVal) (iq t a v : String)
    (kv : String × JVal)
    (h : gemini_step gk call loads iq t a v = .ok kv) :
    kv.1 = "gemini_analysis" ∨ kv.1 = "gemini_error" := by
  unfold gemini_step at h
  repeat'
    first
    | (injection h with h2; rw [← h2]; exact Or.inl rfl)
    | (injection h with h2; rw [← h2]; exact Or.inr rfl)
    | injection h
    | simp at h
    | split at h

theorem hasKey_setKey_true (d : List (String × JVal)) (k : String) (v : JVal)
    (q : String) (h : hasKey d q = true) :
    hasKey (setKey d k v) q = true := by
  rw [hasKey_setKey, h, Bool.or_true]

theorem stages_has_video_file (st : FrontOk) (iq : String) (c : Collab) :
    hasKey (stages st iq c).1.body "video_file" = true := by
  simp only [stages]
  repeat' split
  all_goals
    first
    | rfl
    | (apply hasKey_setKey_true
       apply hasKey_setKey_true
       rfl)

/-- The collaborators of a request on which the encoder fails with a
non-zero exit. -/
def c4FailCollab : Collab := { happyCollab with encoder := fun _ _ => .procError none }

/-- C4 counterexample: a `.webm` request whose conversion fails is
answered with the ConversionFailed error (status 500) whose body carries
no `video_file` field, although the filename is known at that point —
contradicting the claim that all four abort-class errors carry the
filename context. -/
theorem c4_counterexample :
    (process_video_complete ⟨[]⟩ ⟨some "clip.webm", 5, "Q"⟩
        c4FailCollab).1.status = 500 ∧
      hasKey (process_video_complete ⟨[]⟩ ⟨some "clip.webm", 5, "Q"⟩
        c4FailCollab).1.body "video_file" = false := by
  refine ⟨by decide, by decide⟩

/-- C4 (amended): every abort response with status 500 carries the
`video_file` field except the ConversionFailed response, whose body is
just the error message (ValidationFailed responses, status 400, carry no
filename either). -/
theorem c4_amended (fs : FS) (req : Request) (c : Collab)
    (h : (process_video_complete fs req c).1.status = 500) :
    hasKey (process_video_complete fs req c).1.body "video_file" = true ∨
      (process_video_complete fs req c).1.body =
        [("error", .str "Failed to convert .webm file to .mp4")] := by
  unfold process_video_complete at h ⊢
  cases hfr : front fs req c with
  | error r =>
    rw [hfr] at h
    replace h : r.1.status = 500 := h
    show hasKey r.1.body "video_file" = true ∨
      r.1.body = [("error", .str "Failed to convert .webm file to .mp4")]
    rcases front_error_shape fs req c r hfr with h4 | hb
    · rw [h4] at h
      exact absurd h (by decide)
    · exact Or.inr hb
  | ok st =>
    exact Or.inl (stages_has_video_file st req.interview_question c)

/-- The collaborators of a request on which audio extraction fails. -/
def c4ExtractFailCollab : Collab := { happyCollab with extract_audio := fun _ _ => .ok false }

/-- C4 witness: the amended statement at a concrete audio-extraction
failure (a 500 abort whose body does carry `video_file`). -/
theorem c4_witness :
    hasKey (process_video_complete ⟨[]⟩ ⟨some "clip.mp4", 7, "Q"⟩
        c4ExtractFailCollab).1.body "video_file" = true ∨
      (process_video_complete ⟨[]⟩ ⟨some "clip.mp4", 7, "Q"⟩
        c4ExtractFailCollab).1.body =
        [("error", .str "Failed to convert .webm file to .mp4")] :=
  c4_amended ⟨[]⟩ ⟨some "clip.mp4", 7, "Q"⟩ c4ExtractFailCollab (by decide)

/-! ## Claim C1 -/

theorem beq_symm_false {a b : String} (h : (a == b) = false) :
    (b == a) = false := by
  cases hc : (b == a)
  · rfl
  · exfalso
    have hba : b = a := by simpa using hc
    subst hba
    simp at h

theorem convert_ok_facts (encoder : String → String → EncoderOutcome)
    (fs : FS) (alloc webm mp4 : String) (fs2 : FS)
    (h : convert_webm_to_mp4 encoder fs alloc webm = (some mp4, fs2)) :
    mp4 = alloc ∧
      ∀ q, fs2.contains q = ((alloc == q) || fs.contains q) := by
  unfold convert_webm_to_mp4 at h
  cases henc : encoder webm alloc with
  | ok left =>
    rw [henc] at h
    simp only [applyLeft] at h
    cases left with
    | none =>
      have hc : ((fs.write alloc 0).remove alloc).contains alloc = false := by
        simp [FS.contains_remove]
      simp [hc] at h
    | some n =>
      have hct : ((fs.write alloc 0).write alloc n).contains alloc = true := by
        simp [FS.contains_write]
      have hsz : ((fs.write alloc 0).write alloc n).size alloc = n :=
        FS.size_write_self (fs.write alloc 0) alloc n
      rw [hct, hsz] at h
      by_cases hn : n = 0
      · subst hn
        simp at h
      · have hcond : (true && (n != 0)) = true := by simp [hn]
        rw [hcond] at h
        simp at h
        obtain ⟨h1, h2⟩ := h
        subst h1
        refine ⟨rfl, ?_⟩
        intro q
        rw [← h2, FS.contains_write, FS.contains_write]
        cases halq : (alloc == q) <;> simp [halq]
  | procError left =>
    rw [henc] at h
    simp [applyLeft] at h
  | raised left =>
    rw [henc] at h
    simp [applyLeft] at h

theorem front_ok_contains (fs : FS) (req : Request) (c : Collab)
    (st : FrontOk) (h : front fs req c = .ok st)
    (hconv : st.original_file_path ≠ st.file_path) :
    st.fs.contains st.file_path = true ∧
      st.fs.contains st.original_file_path = true := by
  unfold front at h
  cases hv : req.video with
  | none =>
    rw [hv] at h
    exact absurd h (by simp)
  | some f =>
    rw [hv] at h
    simp only [] at h
    by_cases hq : (req.interview_question == "") = true
    · rw [if_pos hq] at h
      exact absurd h (by simp)
    · rw [if_neg hq] at h
      by_cases hfe : (f == "") = true
      · rw [if_pos hfe] at h
        exact absurd h (by simp)
      · rw [if_neg hfe] at h
        by_cases hal : allowed_file f = true
        · rw [if_pos hal, if_neg hfe] at h
          by_cases hw : pyEndsWith (pyLower (c.secure_filename f)) ".webm"
              = true
          · rw [if_pos hw] at h
            rcases hcv : convert_webm_to_mp4 c.encoder
                (fs.write (UPLOAD_FOLDER ++ "/" ++ c.secure_filename f)
                  req.video_size)
                c.alloc (UPLOAD_FOLDER ++ "/" ++ c.secure_filename f)
              with ⟨o, fs2⟩
            rw [hcv] at h
            cases o with
            | none => exact absurd h (by simp)
            | some mp4 =>
              simp only [] at h
              injection h with h2
              subst h2
              rcases convert_ok_facts _ _ _ _ _ _ hcv with ⟨hma, hcontains⟩
              subst hma
              simp only [] at hconv ⊢
              rw [hcontains, hcontains]
              constructor
              · simp
              · simp [FS.contains_write]
          · rw [if_neg hw] at h
            injection h with h2
            subst h2
            exact absurd rfl hconv
        · rw [if_neg hal] at h
          exact absurd h (by simp)

/-- The collaborators of a run in which the conversion succeeds and a
later stage raises an unhandled exception. -/
def c1FaultCollab : Collab := { happyCollab with analyze_audio_features := fun _ _ => .error "boom" }

/-- C1 counterexample: a `.webm` request whose conversion succeeds but
whose audio-feature stage raises an unhandled exception.  After the
response (status 500, whose `video_file` field shows the converted name,
witnessing that normalization ran and succeeded), the original `.webm`
upload still exists and the normalized `.mp4` has been deleted — the
exact opposite of the claimed post-state. -/
theorem c1_counterexample :
    (process_video_complete ⟨[]⟩ ⟨some "clip.webm", 5, "Q"⟩
        c1FaultCollab).1.status = 500 ∧
      lookupStr (process_video_complete ⟨[]⟩ ⟨some "clip.webm", 5, "Q"⟩
        c1FaultCollab).1.body "video_file" = some "tmp_alpha.mp4" ∧
      (process_video_complete ⟨[]⟩ ⟨some "clip.webm", 5, "Q"⟩
        c1FaultCollab).2.contains "uploads/clip.webm" = true ∧
      (process_video_complete ⟨[]⟩ ⟨some "clip.webm", 5, "Q"⟩
        c1FaultCollab).2.contains "uploads/tmp_alpha.mp4" = false := by
  refine ⟨by decide, by decide, by decide, by decide⟩

/-- C1 (amended): the retention invariant holds on the success exit path
only — when normalization ran (the working path differs from the saved
upload) and the response status is 200, the normalized file still exists
and the original upload does not.  (On an unhandled fault the code
deletes the normalized file and keeps the original; on stage-failure
aborts both remain.)  The two artifact paths are assumed distinct from
the audio-artifact path (the spec's collision-freedom assumption). -/
theorem c1_amended (fs : FS) (req : Request) (c : Collab) (st : FrontOk)
    (hfront : front fs req c = .ok st)
    (hconv : st.original_file_path ≠ st.file_path)
    (ha1 : (st.file_path == OUTPUT_AUDIO_FILENAME) = false)
    (ha2 : (st.original_file_path == OUTPUT_AUDIO_FILENAME) = false)
    (h200 : (process_video_complete fs req c).1.status = 200) :
    (process_video_complete fs req c).2.contains st.file_path = true ∧
      (process_video_complete fs req c).2.contains st.original_file_path
        = false := by
  obtain ⟨hcf, hco⟩ := front_ok_contains fs req c st hfront hconv
  unfold process_video_complete at h200 ⊢
  rw [hfront] at h200 ⊢
  replace h200 : (stages st req.interview_question c).1.status = 200 := h200
  show (stages st req.interview_question c).2.contains st.file_path = true ∧
    (stages st req.interview_question c).2.contains st.original_file_path
      = false
  have ha1s := beq_symm_false ha1
  have ha2s := beq_symm_false ha2
  have hof : (st.original_file_path == st.file_path) = false := by
    simp [hconv]
  have hofb : (st.original_file_path != st.file_path) = true := by
    simp [bne, hof]
  have hfsB_file : ((st.fs.write OUTPUT_AUDIO_FILENAME 1).condRemove
      OUTPUT_AUDIO_FILENAME).contains st.file_path = true := by
    rw [FS.contains_condRemove, FS.contains_write]
    simp [ha1s, hcf]
  have hfsB_orig : ((st.fs.write OUTPUT_AUDIO_FILENAME 1).condRemove
      OUTPUT_AUDIO_FILENAME).contains st.original_file_path = true := by
    rw [FS.contains_condRemove, FS.contains_write]
    simp [ha2s, hco]
  have hgoal1 : ((((st.fs.write OUTPUT_AUDIO_FILENAME 1).condRemove
      OUTPUT_AUDIO_FILENAME)).remove st.original_file_path).contains
        st.file_path = true := by
    rw [FS.contains_remove]
    simp [hof, hfsB_file]
  have hgoal2 : ((((st.fs.write OUTPUT_AUDIO_FILENAME 1).condRemove
      OUTPUT_AUDIO_FILENAME)).remove st.original_file_path).contains
        st.original_file_path = false := by
    rw [FS.contains_remove]
    simp
  revert h200
  simp only [stages]
  repeat' split
  all_goals intro h200
  all_goals
    first
    | (exfalso; simp [fault_resp] at h200; done)
    | (exact ⟨hgoal1, hgoal2⟩)
    | (exfalso
       rename_i hb
       exact hb (by rw [hofb, hfsB_orig]; rfl))

/-- C1 witness: the amended statement at a concrete successful `.webm`
run — the converted file is retained and the original deleted. -/
theorem c1_witness :
    (process_video_complete ⟨[]⟩ ⟨some "clip.webm", 5, "Q"⟩
        happyCollab).2.contains "uploads/tmp_alpha.mp4" = true ∧
      (process_video_complete ⟨[]⟩ ⟨some "clip.webm", 5, "Q"⟩
        happyCollab).2.contains "uploads/clip.webm" = false :=
  c1_amended ⟨[]⟩ ⟨some "clip.webm", 5, "Q"⟩ happyCollab
    ⟨"uploads/clip.webm", "uploads/tmp_alpha.mp4", "tmp_alpha.mp4",
      ⟨[("uploads/tmp_alpha.mp4", 10), ("uploads/clip.webm", 5)]⟩⟩
    rfl (by decide) (by decide) (by decide) (by decide)

/-! ## Claim C7 -/

/-- True exactly when an analyzer result is a mapping carrying the reserved
`"error"` key. -/
def vmHasError : Option JEntries → Bool
  | some e => e.hasKey "error"
  | none => false

theorem formatVideoMetricsE_ok (e : JEntries)
    (h : emotionEntriesAreDicts e = true) :
    formatVideoMetricsE e = .ok ("Video Analysis:\n" ++ videoLines e) := by
  unfold formatVideoMetricsE
  exact videoFmtAux_eq e h _

/-- The collaborators of a run whose audio analyzer returns a mapping
tagged with the reserved error key. -/
def c7Collab : Collab := { happyCollab with analyze_audio_features := fun _ _ => .ok (some (.cons "error" (.str "bad") .nil)) }

/-- C7 counterexample: an audio-metrics mapping carrying the reserved
`"error"` key is *not* omitted from the result — the pipeline completes
(status 200) and the error-tagged mapping is stored under
`audio_metrics`, unlike the video case. -/
theorem c7_counterexample :
    (process_video_complete ⟨[]⟩ ⟨some "clip.mp4", 7, "Q"⟩
        c7Collab).1.status = 200 ∧
      hasKey (process_video_complete ⟨[]⟩ ⟨some "clip.mp4", 7, "Q"⟩
        c7Collab).1.body "audio_metrics" = true := by
  refine ⟨by decide, by decide⟩

/-- C7 (amended): whatever the two analyzers return, the pipeline does
not abort (the response is 200 when the later stages are benign — here
the Gemini key is unconfigured); `audio_metrics` is present exactly when
the audio result is truthy (a present, non-empty mapping — an embedded
`"error"` key does *not* suppress it), while `video_metrics` is present
exactly when the video result is truthy *and* carries no `"error"`
key. -/
theorem c7_amended (fs : FS) (req : Request) (c : Collab) (st : FrontOk)
    (t : String) (am vm : Option JEntries)
    (hfront : front fs req c = .ok st)
    (hex : c.extract_audio st.file_path OUTPUT_AUDIO_FILENAME = .ok true)
    (htr : c.transcribe_audio OUTPUT_AUDIO_FILENAME = .ok (some t))
    (ham : c.analyze_audio_features OUTPUT_AUDIO_FILENAME t = .ok am)
    (hvm : c.analyze_video_features st.file_path = .ok vm)
    (hwf : ∀ e, vm = some e → emotionEntriesAreDicts e = true)
    (hkey : c.gemini_key = false) :
    (process_video_complete fs req c).1.status = 200 ∧
      hasKey (process_video_complete fs req c).1.body "audio_metrics"
        = optTruthy am ∧
      hasKey (process_video_complete fs req c).1.body "video_metrics"
        = (optTruthy vm && !(vmHasError vm)) := by
  unfold process_video_complete
  rw [hfront]
  simp only [stages, hex, htr, ham, hvm, hkey, gemini_step,
    Bool.false_eq_true, if_false]
  cases am with
  | none =>
    cases vm with
    | none => exact ⟨rfl, rfl, rfl⟩
    | some e2 =>
      by_cases hc2 : (!e2.isNil && !(e2.hasKey "error")) = true
      · simp only [formatVideoMetricsE_ok e2 (hwf e2 rfl), hc2, optTruthy,
          vmHasError]
        exact ⟨rfl, rfl, rfl⟩
      · have hc2f : (!e2.isNil && !(e2.hasKey "error")) = false := by
          cases hcc : (!e2.isNil && !(e2.hasKey "error"))
          · rfl
          · exact absurd hcc hc2
        simp only [hc2f, optTruthy, vmHasError]
        exact ⟨rfl, rfl, rfl⟩
  | some e =>
    cases hni : e.isNil with
    | true =>
      simp only [hni, optTruthy]
      cases vm with
      | none => exact ⟨rfl, rfl, rfl⟩
      | some e2 =>
        by_cases hc2 : (!e2.isNil && !(e2.hasKey "error")) = true
        · simp only [formatVideoMetricsE_ok e2 (hwf e2 rfl), hc2, optTruthy,
            vmHasError]
          exact ⟨rfl, rfl, rfl⟩
        · have hc2f : (!e2.isNil && !(e2.hasKey "error")) = false := by
            cases hcc : (!e2.isNil && !(e2.hasKey "error"))
            · rfl
            · exact absurd hcc hc2
          simp only [hc2f, optTruthy, vmHasError]
          exact ⟨rfl, rfl, rfl⟩
    | false =>
      simp only [hni, optTruthy]
      cases vm with
      | none => exact ⟨rfl, rfl, rfl⟩
      | some e2 =>
        by_cases hc2 : (!e2.isNil && !(e2.hasKey "error")) = true
        · simp only [formatVideoMetricsE_ok e2 (hwf e2 rfl), hc2, optTruthy,
            vmHasError]
          exact ⟨rfl, rfl, rfl⟩
        · have hc2f : (!e2.isNil && !(e2.hasKey "error")) = false := by
            cases hcc : (!e2.isNil && !(e2.hasKey "error"))
            · rfl
            · exact absurd hcc hc2
          simp only [hc2f, optTruthy, vmHasError]
          exact ⟨rfl, rfl, rfl⟩

/-- C7 witness: the amended statement at a concrete successful run with
both metric dicts present and clean. -/
theorem c7_witness :
    (process_video_complete ⟨[]⟩ ⟨some "clip.mp4", 7, "Q"⟩
        happyCollab).1.status = 200 ∧
      hasKey (process_video_complete ⟨[]⟩ ⟨some "clip.mp4", 7, "Q"⟩
        happyCollab).1.body "audio_metrics" = true ∧
      hasKey (process_video_complete ⟨[]⟩ ⟨some "clip.mp4", 7, "Q"⟩
        happyCollab).1.body "video_metrics" = true :=
  c7_amended ⟨[]⟩ ⟨some "clip.mp4", 7, "Q"⟩ happyCollab
    ⟨"uploads/clip.mp4", "uploads/clip.mp4", "clip.mp4",
      ⟨[("uploads/clip.mp4", 7)]⟩⟩
    "hello world"
    (some (.cons "speech_rate" (.int 2) .nil))
    (some (.cons "emotion_distribution"
      (.obj (.cons "happy" (.int 3) .nil)) .nil))
    rfl rfl rfl rfl rfl
    (by intro e he; injection he with h2; subst h2; decide)
    rfl

/-! ## Claim C9 -/

theorem dropKey_amStep (am : Option JEntries) (d1 d2 : List (String × JVal))
    (hd : dropKey d1 "video_file" = dropKey d2 "video_file") :
    dropKey (match am with
      | some e => if e.isNil then d1 else setKey d1 "audio_metrics" (.obj e)
      | none => d1) "video_file" =
    dropKey (match am with
      | some e => if e.isNil then d2 else setKey d2 "audio_metrics" (.obj e)
      | none => d2) "video_file" := by
  cases am with
  | none => exact hd
  | some e =>
    by_cases hni : e.isNil = true
    · simp only [if_pos hni]
      exact hd
    · simp only [if_neg hni]
      rw [dropKey_setKey_ne _ _ _ _ (by decide),
        dropKey_setKey_ne _ _ _ _ (by decide), hd]

theorem dropKey_vmStep (vm : Option JEntries) (d1 d2 : List (String × JVal))
    (hd : dropKey d1 "video_file" = dropKey d2 "video_file") :
    dropKey (match vm with
      | some e =>
        if !e.isNil && !(e.hasKey "error") then
          setKey d1 "video_metrics" (.obj e)
        else d1
      | none => d1) "video_file" =
    dropKey (match vm with
      | some e =>
        if !e.isNil && !(e.hasKey "error") then
          setKey d2 "video_metrics" (.obj e)
        else d2
      | none => d2) "video_file" := by
  cases vm with
  | none => exact hd
  | some e =>
    by_cases hc : (!e.isNil && !(e.hasKey "error")) = true
    · simp only [if_pos hc]
      rw [dropKey_setKey_ne _ _ _ _ (by decide),
        dropKey_setKey_ne _ _ _ _ (by decide), hd]
    · simp only [if_neg hc]
      exact hd

/-- Responses of `stages` for two runs that share all collaborator
outcomes (the saved/working paths and initial filesystems may differ):
the statuses agree, the bodies agree outside the `video_file` field, and
when the display filenames also agree the responses are identical. -/
theorem stages_resp_congr (st1 st2 : FrontOk) (iq : String)
    (c1 c2 : Collab)
    (hE : c1.extract_audio st1.file_path OUTPUT_AUDIO_FILENAME =
      c2.extract_audio st2.file_path OUTPUT_AUDIO_FILENAME)
    (hT : c1.transcribe_audio = c2.transcribe_audio)
    (hA : c1.analyze_audio_features = c2.analyze_audio_features)
    (hV : c1.analyze_video_features st1.file_path =
      c2.analyze_video_features st2.file_path)
    (hK : c1.gemini_key = c2.gemini_key)
    (hG : c1.analyze_video_with_gemini = c2.analyze_video_with_gemini)
    (hJ : c1.json_loads = c2.json_loads) :
    (stages st1 iq c1).1.status = (stages st2 iq c2).1.status ∧
      dropKey (stages st1 iq c1).1.body "video_file" =
        dropKey (stages st2 iq c2).1.body "video_file" ∧
      (st1.filename = st2.filename →
        (stages st1 iq c1).1 = (stages st2 iq c2).1) := by
  simp only [stages]
  rw [← hE, ← hT, ← hA, ← hV, ← hK, ← hG, ← hJ]
  generalize c1.extract_audio st1.file_path OUTPUT_AUDIO_FILENAME = xE
  cases xE with
  | error e =>
    refine ⟨rfl, rfl, ?_⟩
    intro hfn
    rw [hfn]
  | ok b =>
    cases b with
    | false =>
      refine ⟨rfl, rfl, ?_⟩
      intro hfn
      rw [hfn]
    | true =>
      simp only []
      generalize c1.transcribe_audio OUTPUT_AUDIO_FILENAME = xT
      cases xT with
      | error e =>
        refine ⟨rfl, rfl, ?_⟩
        intro hfn
        rw [hfn]
      | ok t? =>
        cases t? with
        | none =>
          refine ⟨rfl, rfl, ?_⟩
          intro hfn
          rw [hfn]
        | some t =>
          simp only []
          generalize c1.analyze_audio_features OUTPUT_AUDIO_FILENAME t = xA
          cases xA with
          | error e =>
            refine ⟨rfl, rfl, ?_⟩
            intro hfn
            rw [hfn]
          | ok am =>
            simp only []
            generalize c1.analyze_video_features st1.file_path = xV
            cases xV with
            | error e =>
              refine ⟨rfl, rfl, ?_⟩
              intro hfn
              rw [hfn]
            | ok vm =>
              simp only []
              generalize (match vm with
                | some e =>
                  if !e.isNil && !(e.hasKey "error") then
                    formatVideoMetricsE e
                  else Except.ok ""
                | none => Except.ok "") = xF
              cases xF with
              | error e =>
                refine ⟨rfl, rfl, ?_⟩
                intro hfn
                rw [hfn]
              | ok vstr =>
                simp only []
                generalize hxG : gemini_step c1.gemini_key
                  c1.analyze_video_with_gemini c1.json_loads iq t
                  (match am with
                    | some e => if e.isNil then "" else formatAudioMetrics e
                    | none => "") vstr = xG
                cases xG with
                | error e =>
                  refine ⟨rfl, rfl, ?_⟩
                  intro hfn
                  rw [hfn]
                | ok kv =>
                  simp only []
                  have hkvf : (kv.1 == "video_file") = false := by
                    rcases gemini_step_keys _ _ _ _ _ _ _ _ hxG
                      with hk | hk <;> rw [hk] <;> decide
                  refine ⟨by trivial, ?_, ?_⟩
                  · rw [dropKey_setKey_ne _ _ _ _
                        (show (("status" : String) == "video_file") = false
                          by decide),
                      dropKey_setKey_ne _ _ _ _
                        (show (("status" : String) == "video_file") = false
                          by decide),
                      dropKey_setKey_ne _ _ _ _ hkvf,
                      dropKey_setKey_ne _ _ _ _ hkvf]
                    have hM := dropKey_vmStep vm _ _ (dropKey_amStep am
                      (setKey [("video_file", JVal.str st1.filename),
                        ("interview_question", JVal.str iq),
                        ("status", JVal.str "processing")]
                        "transcript" (JVal.str t))
                      (setKey [("video_file", JVal.str st2.filename),
                        ("interview_question", JVal.str iq),
                        ("status", JVal.str "processing")]
                        "transcript" (JVal.str t))
                      (by rw [dropKey_setKey_ne _ _ _ _
                              (show (("transcript" : String) == "video_file")
                                  = false by decide),
                            dropKey_setKey_ne _ _ _ _
                              (show (("transcript" : String) == "video_file")
                                  = false by decide)]
                          rfl))
                    rw [hM]
                  · intro hfn
                    rw [hfn]

theorem convert_ok_of_encoder (encoder : String → String → EncoderOutcome)
    (fs : FS) (alloc webm : String) (n : Nat)
    (h : encoder webm alloc = .ok (some n)) (hn : n ≠ 0) :
    convert_webm_to_mp4 encoder fs alloc webm =
      (some alloc, (fs.write alloc 0).write alloc n) := by
  unfold convert_webm_to_mp4
  rw [h]
  simp only [applyLeft]
  have hcond : (((fs.write alloc 0).write alloc n).contains alloc &&
      ((fs.write alloc 0).write alloc n).size alloc != 0) = true := by
    simp [FS.contains_write, FS.size_write_self, hn]
  rw [if_pos hcond]

/-- The same successful collaborators with a different fresh temp name. -/
def c9CollabB : Collab := { happyCollab with alloc := "uploads/tmp_beta.mp4" }

/-- C9 counterexample: two runs of the same `.webm` request with
deterministic collaborators.  The second run starts from the first run's
final filesystem, in which the first run's converted file still exists
(third conjunct) — so `tempfile.mkstemp` must allocate a different name.
The two PipelineResults then differ in their `video_file` field, which is
not a collaborator-assigned timestamp — refuting the claimed equality of
all fields. -/
theorem c9_counterexample :
    lookupStr (process_video_complete ⟨[]⟩ ⟨some "clip.webm", 5, "Q"⟩
        happyCollab).1.body "video_file" = some "tmp_alpha.mp4" ∧
      lookupStr (process_video_complete
        (process_video_complete ⟨[]⟩ ⟨some "clip.webm", 5, "Q"⟩
          happyCollab).2
        ⟨some "clip.webm", 5, "Q"⟩ c9CollabB).1.body "video_file"
        = some "tmp_beta.mp4" ∧
      (process_video_complete ⟨[]⟩ ⟨some "clip.webm", 5, "Q"⟩
        happyCollab).2.contains "uploads/tmp_alpha.mp4" = true := by
  refine ⟨by decide, by decide, by decide⟩

/-- C9 (amended): with deterministic collaborators, re-running the same
valid input yields the same response for non-`.webm` uploads (conversion
never runs, and neither the initial filesystem nor the temp-name
allocation influences the body); for `.webm` uploads whose conversions
succeed in both runs, the responses agree in status and in every body
field except `video_file`, which carries the freshly allocated temp name
of each run (provided the collaborators give equal results at the two
temp paths, since the converted file's content is the same). -/
theorem c9_amended (fs1 fs2 : FS) (req : Request) (c : Collab)
    (a1 a2 : String) (f : String)
    (hv : req.video = some f) (hf : (f == "") = false)
    (ha : allowed_file f = true)
    (hq : (req.interview_question == "") = false) :
    (pyEndsWith (pyLower (c.secure_filename f)) ".webm" = false →
      (process_video_complete fs1 req { c with alloc := a1 }).1 =
        (process_video_complete fs2 req { c with alloc := a2 }).1) ∧
    (pyEndsWith (pyLower (c.secure_filename f)) ".webm" = true →
      ∀ n1 n2 : Nat, n1 ≠ 0 → n2 ≠ 0 →
        c.encoder (UPLOAD_FOLDER ++ "/" ++ c.secure_filename f) a1
          = .ok (some n1) →
        c.encoder (UPLOAD_FOLDER ++ "/" ++ c.secure_filename f) a2
          = .ok (some n2) →
        c.extract_audio a1 OUTPUT_AUDIO_FILENAME
          = c.extract_audio a2 OUTPUT_AUDIO_FILENAME →
        c.analyze_video_features a1 = c.analyze_video_features a2 →
        ((process_video_complete fs1 req { c with alloc := a1 }).1.status =
            (process_video_complete fs2 req { c with alloc := a2 }).1.status ∧
          dropKey (process_video_complete fs1 req
              { c with alloc := a1 }).1.body "video_file" =
            dropKey (process_video_complete fs2 req
              { c with alloc := a2 }).1.body "video_file")) := by
  constructor
  · intro hw
    have hfr1 := front_valid_nonwebm fs1 req { c with alloc := a1 }
      f hv hf ha hq hw
    have hfr2 := front_valid_nonwebm fs2 req { c with alloc := a2 }
      f hv hf ha hq hw
    unfold process_video_complete
    rw [hfr1, hfr2]
    exact (stages_resp_congr
      ⟨UPLOAD_FOLDER ++ "/" ++ c.secure_filename f,
        UPLOAD_FOLDER ++ "/" ++ c.secure_filename f, c.secure_filename f,
        fs1.write (UPLOAD_FOLDER ++ "/" ++ c.secure_filename f)
          req.video_size⟩
      ⟨UPLOAD_FOLDER ++ "/" ++ c.secure_filename f,
        UPLOAD_FOLDER ++ "/" ++ c.secure_filename f, c.secure_filename f,
        fs2.write (UPLOAD_FOLDER ++ "/" ++ c.secure_filename f)
          req.video_size⟩
      req.interview_question
      { c with alloc := a1 } { c with alloc := a2 }
      rfl rfl rfl rfl rfl rfl rfl).2.2 rfl
  · intro hw n1 n2 hn1 hn2 henc1 henc2 hEx hVx
    have hfr1 := front_valid_webm fs1 req { c with alloc := a1 }
      f hv hf ha hq hw
    have hfr2 := front_valid_webm fs2 req { c with alloc := a2 }
      f hv hf ha hq hw
    rw [convert_ok_of_encoder _ _ _ _ n1 henc1 hn1] at hfr1
    rw [convert_ok_of_encoder _ _ _ _ n2 henc2 hn2] at hfr2
    simp only [] at hfr1 hfr2
    unfold process_video_complete
    rw [hfr1, hfr2]
    have hcongr := stages_resp_congr
      ⟨UPLOAD_FOLDER ++ "/" ++ c.secure_filename f, a1, basename a1,
        (fs1.write (UPLOAD_FOLDER ++ "/" ++ c.secure_filename f)
          req.video_size).write a1 0 |>.write a1 n1⟩
      ⟨UPLOAD_FOLDER ++ "/" ++ c.secure_filename f, a2, basename a2,
        (fs2.write (UPLOAD_FOLDER ++ "/" ++ c.secure_filename f)
          req.video_size).write a2 0 |>.write a2 n2⟩
      req.interview_question
      { c with alloc := a1 } { c with alloc := a2 }
      hEx rfl rfl hVx rfl rfl rfl
    exact ⟨hcongr.1, hcongr.2.1⟩

/-- C9 witness: the amended `.webm` statement at a concrete pair of runs
with distinct fresh temp names — equal statuses and equal bodies outside
`video_file`. -/
theorem c9_witness :
    ((process_video_complete ⟨[]⟩ ⟨some "clip.webm", 5, "Q"⟩
        { happyCollab with alloc := "uploads/tmp_alpha.mp4" }).1.status =
      (process_video_complete ⟨[]⟩ ⟨some "clip.webm", 5, "Q"⟩
        { happyCollab with alloc := "uploads/tmp_beta.mp4" }).1.status ∧
      dropKey (process_video_complete ⟨[]⟩ ⟨some "clip.webm", 5, "Q"⟩
          { happyCollab with alloc := "uploads/tmp_alpha.mp4" }).1.body
          "video_file" =
        dropKey (process_video_complete ⟨[]⟩ ⟨some "clip.webm", 5, "Q"⟩
          { happyCollab with alloc := "uploads/tmp_beta.mp4" }).1.body
          "video_file") :=
  (c9_amended ⟨[]⟩ ⟨[]⟩ ⟨some "clip.webm", 5, "Q"⟩ happyCollab
    "uploads/tmp_alpha.mp4" "uploads/tmp_beta.mp4" "clip.webm"
    rfl (by decide) (by decide) (by decide)).2 (by decide) 10 10
    (by decide) (by decide) rfl rfl rfl rfl
